import Mathlib

/-!
Shallow embedding of the `postalclient-go` library: the `Client` transport
wrapper (`do`/`post` in `client.go`), the four endpoint methods in
`messages.go`, and the data model in `models/`.  HTTP and `encoding/json`
behaviour is modelled explicitly: a JSON document is a `Json` value, a
response body is either well-formed JSON or malformed bytes, and the network
is an environment mapping the built request to a transport outcome.
-/

set_option autoImplicit false

namespace postalclient

/-- A JSON value, modelling the documents exchanged with the Postal API.
Numbers are kept as rationals (Go decodes them into `float64`/`int` fields). -/
inductive Json where
  | null : Json
  | bool : Bool → Json
  | num : ℚ → Json
  | str : String → Json
  | arr : List Json → Json
  | obj : List (String × Json) → Json

/-- The value associated with the last occurrence of key `k` in a JSON
object's field list; `encoding/json` lets later duplicate keys overwrite
earlier ones. -/
def lastAssoc (k : String) : List (String × Json) → Option Json
  | [] => none
  | f :: fs =>
    match lastAssoc k fs with
    | some v => some v
    | none => if f.1 = k then some f.2 else none

/-- Decode a JSON value into a Go `string` field holding `cur`:
a string replaces it, `null` leaves it unchanged, anything else is a type
error (`encoding/json` semantics). -/
def decodeStringField (cur : String) : Json → Except String String
  | .str s => .ok s
  | .null => .ok cur
  | _ => .error "cannot unmarshal value into Go field of type string"

/-- Decode a JSON value into a Go `float64` field holding `cur`. -/
def decodeFloatField (cur : ℚ) : Json → Except String ℚ
  | .num q => .ok q
  | .null => .ok cur
  | _ => .error "cannot unmarshal value into Go field of type float64"

/-- Decode a JSON value into a Go `int` field holding `cur`: the number must
be integral and fit in 64 bits. -/
def decodeIntField (cur : Int) : Json → Except String Int
  | .num q =>
    if q.den = 1 ∧ -(2 ^ 63) ≤ q.num ∧ q.num < 2 ^ 63 then .ok q.num
    else .error "cannot unmarshal number into Go field of type int"
  | .null => .ok cur
  | _ => .error "cannot unmarshal value into Go field of type int"

/-- Decode a JSON value into a Go `bool` field holding `cur`. -/
def decodeBoolField (cur : Bool) : Json → Except String Bool
  | .bool b => .ok b
  | .null => .ok cur
  | _ => .error "cannot unmarshal value into Go field of type bool"

/-- A `json.RawMessage` field is modelled as the JSON value whose raw bytes it
holds, `none` standing for a nil (absent) `RawMessage`.  Its `UnmarshalJSON`
stores any value verbatim, including `null`. -/
def decodeRawField (_cur : Option Json) (j : Json) : Except String (Option Json) :=
  .ok (some j)

/-- `Response` from `client.go`: the envelope of a successful Postal API
response (`status`, `time`, `flags`, `data`), with `data` kept as raw JSON. -/
structure Response where
  Status : String := ""
  Time : ℚ := 0
  Flags : Option Json := none
  Data : Option Json := none

/-- `Error` from `client.go`: the envelope of an error response, extending the
success envelope with `error_code` and `message`.  It is the library's
structured API error (`*Error`). -/
structure Error where
  Status : String := ""
  Time : ℚ := 0
  Flags : Option Json := none
  Data : Option Json := none
  ErrorCode : String := ""
  Message : String := ""

/-- `(*Error).Error()` from `client.go`. -/
def Error.errorString (e : Error) : String :=
  "postal API error: " ++ e.Status ++ " - " ++ e.Message

/-- Apply one JSON object entry to a `Response` accumulator, following the
struct tags `status`, `time`, `flags`, `data`; unknown keys are ignored. -/
def setResponseField (r : Response) (f : String × Json) : Except String Response :=
  if f.1 = "status" then (decodeStringField r.Status f.2).map fun s => { r with Status := s }
  else if f.1 = "time" then (decodeFloatField r.Time f.2).map fun q => { r with Time := q }
  else if f.1 = "flags" then (decodeRawField r.Flags f.2).map fun v => { r with Flags := v }
  else if f.1 = "data" then (decodeRawField r.Data f.2).map fun v => { r with Data := v }
  else .ok r

/-- Apply one JSON object entry to an `Error` accumulator, following the
struct tags `status`, `time`, `flags`, `data`, `error_code`, `message`. -/
def setErrorField (e : Error) (f : String × Json) : Except String Error :=
  if f.1 = "status" then (decodeStringField e.Status f.2).map fun s => { e with Status := s }
  else if f.1 = "time" then (decodeFloatField e.Time f.2).map fun q => { e with Time := q }
  else if f.1 = "flags" then (decodeRawField e.Flags f.2).map fun v => { e with Flags := v }
  else if f.1 = "data" then (decodeRawField e.Data f.2).map fun v => { e with Data := v }
  else if f.1 = "error_code" then (decodeStringField e.ErrorCode f.2).map fun s => { e with ErrorCode := s }
  else if f.1 = "message" then (decodeStringField e.Message f.2).map fun s => { e with Message := s }
  else .ok e

/-- Fold a struct-field setter over a JSON object's entries, stopping at the
first type error (an erring `json.Unmarshal` call reports a non-nil error and
its partially filled value never escapes the library). -/
def decodeFields {α : Type} (set : α → String × Json → Except String α) :
    α → List (String × Json) → Except String α
  | a, [] => .ok a
  | a, f :: fs =>
    match set a f with
    | .error e => .error e
    | .ok a2 => decodeFields set a2 fs

/-- `json.Unmarshal` of a JSON value into a Go struct: an object is decoded
field by field, `null` leaves the zero value, anything else is a type error. -/
def unmarshalStruct {α : Type} (set : α → String × Json → Except String α) (a0 : α) :
    Json → Except String α
  | .obj fs => decodeFields set a0 fs
  | .null => .ok a0
  | _ => .error "cannot unmarshal value into Go struct"

/-- `json.Unmarshal(respBody, &apiResp)` with `apiResp` a zero `Response`. -/
def unmarshalResponse : Json → Except String Response :=
  unmarshalStruct setResponseField {}

/-- `json.Unmarshal(respBody, &apiError)` with `apiError` a zero `Error`. -/
def unmarshalError : Json → Except String Error :=
  unmarshalStruct setErrorField {}

/-! ## The client and its environment -/

/-- `http.Client` as this library uses it: after construction only its
`Timeout` (nanoseconds) is ever read. -/
structure HTTPClient where
  Timeout : Int

/-- `Client` from `client.go`. -/
structure Client where
  BaseURL : String
  APIKey : String
  HTTPClient : HTTPClient

/-- `DefaultBaseURL` from `client.go`. -/
def DefaultBaseURL : String := "https://postal.example.com/api/v1"

/-- `DefaultTimeout` from `client.go`: 30 seconds, in nanoseconds as Go
`time.Duration` counts. -/
def DefaultTimeout : Int := 30 * 1000000000

/-- `NewClient` from `client.go`. -/
def NewClient (apiKey : String) : Client :=
  { BaseURL := DefaultBaseURL, APIKey := apiKey
  , HTTPClient := { Timeout := DefaultTimeout } }

/-- `NewClientWithOptions` from `client.go`. -/
def NewClientWithOptions (apiKey baseURL : String) (timeout : Int) : Client :=
  { BaseURL := baseURL, APIKey := apiKey, HTTPClient := { Timeout := timeout } }

/-- A Go `interface\x7b\x7d` request body as `json.Marshal` sees it: either a
value that encodes to the JSON document `j`, or one on which `Marshal` fails
(for example a value containing a channel), carrying the failure message. -/
inductive GoValue where
  | jsonable : Json → GoValue
  | notMarshalable : String → GoValue

/-- An `error` value produced by the library: a `fmt.Errorf("...: %w", err)`
wrap, an `encoding/json` error, a `net/http` error, or the structured
`*Error` the API-error paths return. -/
inductive GoErr where
  | errorf : String → GoErr → GoErr
  | jsonError : String → GoErr
  | httpError : String → GoErr
  | api : Error → GoErr

/-- `true` exactly when the error is the structured API error `*Error`. -/
def GoErr.isApi : GoErr → Bool
  | .api _ => true
  | _ => false

/-- The `*http.Request` that `do` builds and hands to `HTTPClient.Do`. -/
structure HTTPRequest where
  method : String
  url : String
  headers : List (String × String)
  body : Option Json

/-- The body of an HTTP response as `io.ReadAll` returns it: either bytes that
are not valid JSON, or a well-formed JSON document. -/
inductive RespBody where
  | malformed : String → RespBody
  | wellFormed : Json → RespBody

/-- The outcome of `HTTPClient.Do` plus `io.ReadAll` for one request:
`Do` itself fails, the body read fails, or a response with a status code and
a fully read body arrives. -/
inductive TransportResult where
  | doFails : String → TransportResult
  | readFails : Nat → String → TransportResult
  | success : Nat → RespBody → TransportResult

/-- The environment a call runs in: whether `http.NewRequest` fails for the
URL being built (with which message), and what the network answers to the
request that is sent. -/
structure Env where
  newRequestFails : Option String
  transport : HTTPRequest → TransportResult

/-- Marshalling of the optional request body at the top of `do`
(`client.go`): a nil body stays nil, otherwise `json.Marshal` either yields
the JSON bytes or fails, in which case `do` returns the wrapped error. -/
def marshalBody : Option GoValue → Except GoErr (Option Json)
  | none => .ok none
  | some (.jsonable j) => .ok (some j)
  | some (.notMarshalable m) => .error (.errorf "error marshaling request body" (.jsonError m))

/-- The request `do` constructs (`client.go` lines 257 and 270-278): URL
`BaseURL ++ path`, and exactly the three headers set by `Header.Set`. -/
def Client.newRequest (c : Client) (method path : String) (body : Option Json) : HTTPRequest :=
  { method := method
  , url := c.BaseURL ++ path
  , headers :=
      [ ("Content-Type", "application/json")
      , ("Accept", "application/json")
      , ("X-Server-API-Key", c.APIKey) ]
  , body := body }

/-- Unmarshal a response body with a given document decoder: malformed bytes
are a JSON syntax error before any struct decoding happens. -/
def unmarshalBody {α : Type} (dec : Json → Except String α) : RespBody → Except String α
  | .malformed _ => .error "invalid character in JSON input"
  | .wellFormed j => dec j

/-- `Client.do` from `client.go` (renamed: `do` is a Lean keyword).  Marshal
the body, build the request, send it, read the body; a non-200 status decodes
the body as an `Error` and returns it; a 200 status decodes the envelope,
treating a non-`"success"` `status` field as an `Error` as well.  The Go
method returns `(*Response, error)` with exactly one side non-nil, which
`Except` captures. -/
def Client.doRequest (c : Client) (env : Env) (method path : String)
    (body : Option GoValue) : Except GoErr Response :=
  match marshalBody body with
  | .error e => .error e
  | .ok ob =>
    match env.newRequestFails with
    | some m => .error (.errorf "error creating request" (.httpError m))
    | none =>
      match env.transport (c.newRequest method path ob) with
      | .doFails m => .error (.errorf "error performing request" (.httpError m))
      | .readFails _ m => .error (.errorf "error reading response body" (.httpError m))
      | .success status respBody =>
        if status ≠ 200 then
          match unmarshalBody unmarshalError respBody with
          | .error m => .error (.errorf "error unmarshaling error response" (.jsonError m))
          | .ok e => .error (.api e)
        else
          match unmarshalBody unmarshalResponse respBody with
          | .error m => .error (.errorf "error unmarshaling response" (.jsonError m))
          | .ok resp =>
            if resp.Status ≠ "success" then
              match unmarshalBody unmarshalError respBody with
              | .error m => .error (.errorf "error unmarshaling error response" (.jsonError m))
              | .ok e => .error (.api e)
            else .ok resp

/-- `Client.post` from `client.go`: `do` with `http.MethodPost`. -/
def Client.post (c : Client) (env : Env) (path : String) (body : Option GoValue) :
    Except GoErr Response :=
  c.doRequest env "POST" path body

/-! ## The data model (`models/`) -/

/-- `models.Attachment`. -/
structure Attachment where
  Name : String := ""
  ContentType : String := ""
  Data : String := ""
  Size : Int := 0

/-- `models.MessageStatus`: a placeholder struct with no fields yet. -/
structure MessageStatus where

/-- `models.MessageDetails`: a placeholder struct with no fields yet. -/
structure MessageDetails where

/-- Go `time.Time` as this library touches it: only ever produced by JSON
decoding, which accepts an RFC3339 string (stdlib behaviour, modelled by
keeping the accepted string). -/
structure GoTime where
  rfc3339 : String

/-- `models.Message`. -/
structure Message where
  ID : Int := 0
  Token : String := ""
  Status : Option MessageStatus := none
  Details : Option MessageDetails := none
  Inspection : Option Json := none
  PlainBody : String := ""
  HTMLBody : String := ""
  Attachments : List Attachment := []
  Headers : List (String × String) := []
  RawMessage : String := ""

/-- `models.Delivery`. -/
structure Delivery where
  ID : Int := 0
  Status : String := ""
  Details : String := ""
  Output : String := ""
  SentWithSSL : Bool := false
  LogID : Int := 0
  Time : ℚ := 0
  Timestamp : GoTime := { rfc3339 := "" }

/-- `models.SendMessageResponse`. -/
structure SendMessageResponse where
  MessageID : Int := 0
  Token : String := ""

/-- `models.SendMessageRequest`.  The `Headers` map is modelled as an
association list with map semantics (a later binding for a key replaces an
earlier one on decode; encoding order is irrelevant to every claim). -/
structure SendMessageRequest where
  To : List String := []
  CC : List String := []
  BCC : List String := []
  From : String := ""
  Sender : String := ""
  Subject : String := ""
  Tag : String := ""
  ReplyTo : String := ""
  PlainBody : String := ""
  HTMLBody : String := ""
  Attachments : List Attachment := []
  Headers : List (String × String) := []
  Bounce : Bool := false

/-- `models.SendRawRequest`. -/
structure SendRawRequest where
  MailFrom : String := ""
  RcptTo : List String := []
  Data : String := ""
  Bounce : Bool := false

/-! ### JSON decoding of the model types -/

/-- A minimal well-formedness test for the RFC3339 timestamps `time.Time`
accepts from JSON (models stdlib parsing: date, `T`, time of day). -/
def looksRFC3339 (s : String) : Bool :=
  match s.toList with
  | y1 :: y2 :: y3 :: y4 :: '-' :: m1 :: m2 :: '-' :: d1 :: d2 :: 'T' ::
      h1 :: h2 :: ':' :: n1 :: n2 :: ':' :: s1 :: s2 :: rest =>
    [y1, y2, y3, y4, m1, m2, d1, d2, h1, h2, n1, n2, s1, s2].all Char.isDigit &&
      !rest.isEmpty
  | _ => false

/-- Decode a JSON value into a Go `time.Time` field. -/
def decodeTimeField (cur : GoTime) : Json → Except String GoTime
  | .str s =>
    if looksRFC3339 s then .ok { rfc3339 := s }
    else .error "parsing time: value is not RFC3339"
  | .null => .ok cur
  | _ => .error "cannot unmarshal value into Go field of type time.Time"

/-- Decode a JSON value into a `*MessageStatus` / `*MessageDetails` style
pointer-to-empty-struct field: `null` gives a nil pointer, an object an
allocated (empty) struct. -/
def decodeEmptyStructPtrField {α : Type} (a : α) (cur : Option α) :
    Json → Except String (Option α)
  | .obj _ => .ok (some a)
  | .null => .ok cur
  | _ => .error "cannot unmarshal value into Go struct pointer field"

/-- Apply one JSON object entry to an `Attachment` accumulator (tags `name`,
`content_type`, `data`, `size`). -/
def setAttachmentField (a : Attachment) (f : String × Json) : Except String Attachment :=
  if f.1 = "name" then (decodeStringField a.Name f.2).map fun s => { a with Name := s }
  else if f.1 = "content_type" then (decodeStringField a.ContentType f.2).map fun s => { a with ContentType := s }
  else if f.1 = "data" then (decodeStringField a.Data f.2).map fun s => { a with Data := s }
  else if f.1 = "size" then (decodeIntField a.Size f.2).map fun n => { a with Size := n }
  else .ok a

/-- `json.Unmarshal` of one JSON value into an `Attachment`. -/
def unmarshalAttachment : Json → Except String Attachment :=
  unmarshalStruct setAttachmentField {}

/-- Decode a JSON value into a Go `[]Attachment` field. -/
def decodeAttachmentsField (cur : List Attachment) : Json → Except String (List Attachment)
  | .arr xs => xs.mapM unmarshalAttachment
  | .null => .ok cur
  | _ => .error "cannot unmarshal value into Go field of type []Attachment"

/-- Insert with map semantics: a binding for an existing key replaces it. -/
def mapInsert (m : List (String × String)) (k v : String) : List (String × String) :=
  if m.any fun p => p.1 = k then m.map fun p => if p.1 = k then (k, v) else p
  else m ++ [(k, v)]

/-- Decode a JSON value into a Go `map[string]string` field: every entry's
value must be a string; duplicate keys follow map-assignment semantics. -/
def decodeStringMapField (cur : List (String × String)) :
    Json → Except String (List (String × String))
  | .obj fs =>
    fs.foldlM (fun m f =>
      match f.2 with
      | .str v => Except.ok (mapInsert m f.1 v)
      | .null => Except.ok m
      | _ => Except.error "cannot unmarshal value into Go field of type map[string]string") []
  | .null => .ok cur
  | _ => .error "cannot unmarshal value into Go field of type map[string]string"

/-- Apply one JSON object entry to a `Message` accumulator, following the
struct tags in `models/message.go`. -/
def setMessageField (m : Message) (f : String × Json) : Except String Message :=
  if f.1 = "id" then (decodeIntField m.ID f.2).map fun n => { m with ID := n }
  else if f.1 = "token" then (decodeStringField m.Token f.2).map fun s => { m with Token := s }
  else if f.1 = "status" then (decodeEmptyStructPtrField {} m.Status f.2).map fun v => { m with Status := v }
  else if f.1 = "details" then (decodeEmptyStructPtrField {} m.Details f.2).map fun v => { m with Details := v }
  else if f.1 = "inspection" then (decodeRawField m.Inspection f.2).map fun v => { m with Inspection := v }
  else if f.1 = "plain_body" then (decodeStringField m.PlainBody f.2).map fun s => { m with PlainBody := s }
  else if f.1 = "html_body" then (decodeStringField m.HTMLBody f.2).map fun s => { m with HTMLBody := s }
  else if f.1 = "attachments" then (decodeAttachmentsField m.Attachments f.2).map fun v => { m with Attachments := v }
  else if f.1 = "headers" then (decodeStringMapField m.Headers f.2).map fun v => { m with Headers := v }
  else if f.1 = "raw_message" then (decodeStringField m.RawMessage f.2).map fun s => { m with RawMessage := s }
  else .ok m

/-- `json.Unmarshal(resp.Data, &message)` in `GetMessage`. -/
def unmarshalMessage : Json → Except String Message :=
  unmarshalStruct setMessageField {}

/-- Apply one JSON object entry to a `Delivery` accumulator, following the
struct tags in `models/message.go`. -/
def setDeliveryField (d : Delivery) (f : String × Json) : Except String Delivery :=
  if f.1 = "id" then (decodeIntField d.ID f.2).map fun n => { d with ID := n }
  else if f.1 = "status" then (decodeStringField d.Status f.2).map fun s => { d with Status := s }
  else if f.1 = "details" then (decodeStringField d.Details f.2).map fun s => { d with Details := s }
  else if f.1 = "output" then (decodeStringField d.Output f.2).map fun s => { d with Output := s }
  else if f.1 = "sent_with_ssl" then (decodeBoolField d.SentWithSSL f.2).map fun b => { d with SentWithSSL := b }
  else if f.1 = "log_id" then (decodeIntField d.LogID f.2).map fun n => { d with LogID := n }
  else if f.1 = "time" then (decodeFloatField d.Time f.2).map fun q => { d with Time := q }
  else if f.1 = "timestamp" then (decodeTimeField d.Timestamp f.2).map fun t => { d with Timestamp := t }
  else .ok d

/-- `json.Unmarshal` of one JSON value into a `Delivery`. -/
def unmarshalDelivery : Json → Except String Delivery :=
  unmarshalStruct setDeliveryField {}

/-- `json.Unmarshal(resp.Data, &deliveries)` in `GetMessageDeliveries`:
a JSON array decoded element by element into `[]models.Delivery`. -/
def unmarshalDeliveries : Json → Except String (List Delivery)
  | .arr xs => xs.mapM unmarshalDelivery
  | .null => .ok []
  | _ => .error "cannot unmarshal value into Go value of type []Delivery"

/-- Apply one JSON object entry to a `SendMessageResponse` accumulator
(tags `message_id`, `token`). -/
def setSendRespField (r : SendMessageResponse) (f : String × Json) :
    Except String SendMessageResponse :=
  if f.1 = "message_id" then (decodeIntField r.MessageID f.2).map fun n => { r with MessageID := n }
  else if f.1 = "token" then (decodeStringField r.Token f.2).map fun s => { r with Token := s }
  else .ok r

/-- `json.Unmarshal(resp.Data, &sendResp)` in `SendMessage` / `SendRaw`. -/
def unmarshalSendResponse : Json → Except String SendMessageResponse :=
  unmarshalStruct setSendRespField {}

/-! ### JSON encoding of the request types -/

/-- `json.Marshal` of one `Attachment` (no `omitempty` tags). -/
def Attachment.toJson (a : Attachment) : Json :=
  Json.obj
    [ ("name", Json.str a.Name)
    , ("content_type", Json.str a.ContentType)
    , ("data", Json.str a.Data)
    , ("size", Json.num (a.Size : ℚ)) ]

/-- `json.Marshal` of a `SendMessageRequest`, field by field in struct order,
dropping the fields whose tags carry `omitempty` when they hold their zero
value. -/
def SendMessageRequest.toJson (r : SendMessageRequest) : Json :=
  Json.obj (
    [("to", Json.arr (r.To.map Json.str))]
    ++ (if r.CC.isEmpty then [] else [("cc", Json.arr (r.CC.map Json.str))])
    ++ (if r.BCC.isEmpty then [] else [("bcc", Json.arr (r.BCC.map Json.str))])
    ++ [("from", Json.str r.From)]
    ++ (if r.Sender = "" then [] else [("sender", Json.str r.Sender)])
    ++ [("subject", Json.str r.Subject)]
    ++ (if r.Tag = "" then [] else [("tag", Json.str r.Tag)])
    ++ (if r.ReplyTo = "" then [] else [("reply_to", Json.str r.ReplyTo)])
    ++ (if r.PlainBody = "" then [] else [("plain_body", Json.str r.PlainBody)])
    ++ (if r.HTMLBody = "" then [] else [("html_body", Json.str r.HTMLBody)])
    ++ (if r.Attachments.isEmpty then [] else [("attachments", Json.arr (r.Attachments.map Attachment.toJson))])
    ++ (if r.Headers.isEmpty then [] else [("headers", Json.obj (r.Headers.map fun p => (p.1, Json.str p.2)))])
    ++ (if r.Bounce then [("bounce", Json.bool r.Bounce)] else []))

/-- `json.Marshal` of a `SendRawRequest`. -/
def SendRawRequest.toJson (r : SendRawRequest) : Json :=
  Json.obj (
    [ ("mail_from", Json.str r.MailFrom)
    , ("rcpt_to", Json.arr (r.RcptTo.map Json.str))
    , ("data", Json.str r.Data) ]
    ++ (if r.Bounce then [("bounce", Json.bool r.Bounce)] else []))

/-! ## The endpoint methods (`messages.go`) -/

/-- The `map[string]interface\x7b\x7d\x7b"id": id\x7d` body built by
`GetMessage` and `GetMessageDeliveries`. -/
def idBody (id : Int) : Json :=
  Json.obj [("id", Json.num (id : ℚ))]

/-- `json.Unmarshal(resp.Data, &target)` as the endpoint methods call it:
a nil `RawMessage` is empty input and fails, otherwise the held JSON value is
decoded by the target type's decoder. -/
def decodeData {α : Type} (dec : Json → Except String α) : Option Json → Except String α
  | none => .error "unexpected end of JSON input"
  | some j => dec j

/-- `Client.GetMessage` from `messages.go`: POST the id to
`/messages/message`, then decode the envelope's `data` into a `Message`,
wrapping a decode failure and propagating every transport error unchanged. -/
def Client.GetMessage (c : Client) (env : Env) (id : Int) : Except GoErr Message :=
  match c.post env "/messages/message" (some (.jsonable (idBody id))) with
  | .error e => .error e
  | .ok resp =>
    match decodeData unmarshalMessage resp.Data with
    | .error m => .error (.errorf "error unmarshaling response" (.jsonError m))
    | .ok msg => .ok msg

/-- `Client.GetMessageDeliveries` from `messages.go`: POST the id to
`/messages/deliveries`, then decode `data` into `[]Delivery`. -/
def Client.GetMessageDeliveries (c : Client) (env : Env) (id : Int) :
    Except GoErr (List Delivery) :=
  match c.post env "/messages/deliveries" (some (.jsonable (idBody id))) with
  | .error e => .error e
  | .ok resp =>
    match decodeData unmarshalDeliveries resp.Data with
    | .error m => .error (.errorf "error unmarshaling response" (.jsonError m))
    | .ok ds => .ok ds

/-- `Client.SendMessage` from `messages.go`: POST the request to
`/send/message`, then decode `data` into a `SendMessageResponse`. -/
def Client.SendMessage (c : Client) (env : Env) (req : SendMessageRequest) :
    Except GoErr SendMessageResponse :=
  match c.post env "/send/message" (some (.jsonable req.toJson)) with
  | .error e => .error e
  | .ok resp =>
    match decodeData unmarshalSendResponse resp.Data with
    | .error m => .error (.errorf "error unmarshaling send response" (.jsonError m))
    | .ok r => .ok r

/-- `Client.SendRaw` from `messages.go`: POST the request to `/send/raw`,
then decode `data` into a `SendMessageResponse`. -/
def Client.SendRaw (c : Client) (env : Env) (req : SendRawRequest) :
    Except GoErr SendMessageResponse :=
  match c.post env "/send/raw" (some (.jsonable req.toJson)) with
  | .error e => .error e
  | .ok resp =>
    match decodeData unmarshalSendResponse resp.Data with
    | .error m => .error (.errorf "error unmarshaling send response" (.jsonError m))
    | .ok r => .ok r

/-! ## State-passing forms

Go methods receive `c` as a pointer receiver and could assign to its fields;
no method body of this library contains such an assignment, so the
state-passing embedding of each method pairs its result with the receiver it
leaves behind, which is the receiver it was given. -/

/-- State-passing form of `Client.do`. -/
def Client.doRequestSt (c : Client) (env : Env) (method path : String)
    (body : Option GoValue) : Except GoErr Response × Client :=
  (c.doRequest env method path body, c)

/-- State-passing form of `Client.post`. -/
def Client.postSt (c : Client) (env : Env) (path : String) (body : Option GoValue) :
    Except GoErr Response × Client :=
  (c.post env path body, c)

/-- State-passing form of `Client.GetMessage`. -/
def Client.GetMessageSt (c : Client) (env : Env) (id : Int) :
    Except GoErr Message × Client :=
  (c.GetMessage env id, c)

/-- State-passing form of `Client.GetMessageDeliveries`. -/
def Client.GetMessageDeliveriesSt (c : Client) (env : Env) (id : Int) :
    Except GoErr (List Delivery) × Client :=
  (c.GetMessageDeliveries env id, c)

/-- State-passing form of `Client.SendMessage`. -/
def Client.SendMessageSt (c : Client) (env : Env) (req : SendMessageRequest) :
    Except GoErr SendMessageResponse × Client :=
  (c.SendMessage env req, c)

/-- State-passing form of `Client.SendRaw`. -/
def Client.SendRawSt (c : Client) (env : Env) (req : SendRawRequest) :
    Except GoErr SendMessageResponse × Client :=
  (c.SendRaw env req, c)

/-! ## Observations and concrete fixtures -/

/-- The spec's "2xx range" of HTTP status codes. -/
def in2xx (s : Nat) : Prop := 200 ≤ s ∧ s ≤ 299

instance (s : Nat) : Decidable (in2xx s) := by unfold in2xx; infer_instance

/-- The call produced a non-nil envelope and a nil error. -/
def resultIsOk {α : Type} : Except GoErr α → Bool
  | .ok _ => true
  | .error _ => false

/-- The call failed with the structured API error `*Error`. -/
def returnsApiError {α : Type} : Except GoErr α → Bool
  | .error (.api _) => true
  | _ => false

/-- An environment whose server always answers with the given status code
and well-formed JSON body, and in which request construction succeeds. -/
def stubEnv (status : Nat) (body : Json) : Env :=
  { newRequestFails := none
  , transport := fun _ => .success status (.wellFormed body) }

/-- An environment in which `HTTPClient.Do` always fails. -/
def failEnv (msg : String) : Env :=
  { newRequestFails := none, transport := fun _ => .doFails msg }

/-- Fields of a success envelope carrying some `data`. -/
def succFields : List (String × Json) :=
  [ ("status", Json.str "success"), ("time", Json.num 0)
  , ("flags", Json.obj []), ("data", Json.obj [("x", Json.num 1)]) ]

/-- Fields of an error envelope with an `error_code` and a `message`,
as the stub server of the repository's tests sends them. -/
def errFields : List (String × Json) :=
  [ ("status", Json.str "error"), ("time", Json.num 0)
  , ("flags", Json.obj []), ("data", Json.obj [])
  , ("error_code", Json.str "test-error")
  , ("message", Json.str "Test error message") ]

/-- A body that decodes as the success envelope (`error_code` is an unknown
key there) but not as an `Error` (`error_code` must be a string). -/
def mixedFields : List (String × Json) :=
  [("status", Json.str "fail"), ("error_code", Json.num 5)]

/-- The envelope of the spec's example scenario:
`\x7b"status":"success","data":\x7b"message_id":123,"token":"t"\x7d\x7d`. -/
def sendEnvelope : Json :=
  Json.obj
    [ ("status", Json.str "success")
    , ("data", Json.obj [("message_id", Json.num 123), ("token", Json.str "t")]) ]

/-- A success envelope whose `data` (a bare number) decodes into none of the
endpoint response types. -/
def badDataEnvelope : Json :=
  Json.obj [("status", Json.str "success"), ("data", Json.num 7)]

/-- The parse of `Json.obj succFields` as a `Response`. -/
def succResponse : Response :=
  { Status := "success", Time := 0, Flags := some (Json.obj [])
  , Data := some (Json.obj [("x", Json.num 1)]) }

/-- The parse of `Json.obj errFields` as an `Error`. -/
def errParsed : Error :=
  { Status := "error", Time := 0, Flags := some (Json.obj [])
  , Data := some (Json.obj []), ErrorCode := "test-error"
  , Message := "Test error message" }

/-- The parse of `badDataEnvelope` as a `Response`. -/
def badDataResponse : Response :=
  { Status := "success", Data := some (Json.num 7) }

/-- The typed result of the spec's example scenario. -/
def sendResponse123 : SendMessageResponse := { MessageID := 123, Token := "t" }

/-- The request of the spec's example scenario. -/
def exampleRequest : SendMessageRequest := { To := ["a@b.com"], From := "c@d.com" }

/-! ## Helper lemmas -/

theorem except_map_ok {α β : Type} {f : α → β} {x : Except String α} {b : β}
    (h : Except.map f x = .ok b) : ∃ a, x = .ok a ∧ b = f a := by
  cases x with
  | error e => simp [Except.map] at h
  | ok a =>
    refine ⟨a, rfl, ?_⟩
    simpa [Except.map, eq_comm] using h

/-- A successful field step leaves `Data` alone unless the key is `data`,
in which case it stores the raw value. -/
theorem setResponseField_Data {r a2 : Response} {f : String × Json}
    (h : setResponseField r f = .ok a2) :
    a2.Data = if f.1 = "data" then some f.2 else r.Data := by
  unfold setResponseField at h
  by_cases h1 : f.1 = "status"
  · simp only [h1, String.reduceEq, String.reduceEq, reduceIte] at h ⊢
    obtain ⟨s, _, rfl⟩ := except_map_ok h
    rfl
  · by_cases h2 : f.1 = "time"
    · simp only [h1, h2, String.reduceEq, String.reduceEq, reduceIte] at h ⊢
      obtain ⟨q, _, rfl⟩ := except_map_ok h
      rfl
    · by_cases h3 : f.1 = "flags"
      · simp only [h1, h2, h3, String.reduceEq, String.reduceEq, reduceIte] at h ⊢
        obtain ⟨v, _, rfl⟩ := except_map_ok h
        rfl
      · by_cases h4 : f.1 = "data"
        · simp only [h1, h2, h3, h4, String.reduceEq, String.reduceEq, reduceIte] at h ⊢
          obtain ⟨v, hv, rfl⟩ := except_map_ok h
          simp only [decodeRawField] at hv
          cases hv
          rfl
        · simp only [h1, h2, h3, h4, String.reduceEq, String.reduceEq, reduceIte] at h ⊢
          cases h
          rfl

/-- A successful `Error` field step for a key other than `message` leaves
`Message` alone. -/
theorem setErrorField_Message_other {e e2 : Error} {f : String × Json}
    (hf : f.1 ≠ "message") (h : setErrorField e f = .ok e2) :
    e2.Message = e.Message := by
  unfold setErrorField at h
  by_cases h1 : f.1 = "status"
  · simp only [h1, String.reduceEq, reduceIte] at h
    obtain ⟨s, _, rfl⟩ := except_map_ok h
    rfl
  · by_cases h2 : f.1 = "time"
    · simp only [h1, h2, String.reduceEq, reduceIte] at h
      obtain ⟨q, _, rfl⟩ := except_map_ok h
      rfl
    · by_cases h3 : f.1 = "flags"
      · simp only [h1, h2, h3, String.reduceEq, reduceIte] at h
        obtain ⟨v, _, rfl⟩ := except_map_ok h
        rfl
      · by_cases h4 : f.1 = "data"
        · simp only [h1, h2, h3, h4, String.reduceEq, reduceIte] at h
          obtain ⟨v, _, rfl⟩ := except_map_ok h
          rfl
        · by_cases h5 : f.1 = "error_code"
          · simp only [h1, h2, h3, h4, h5, String.reduceEq, reduceIte] at h
            obtain ⟨s, _, rfl⟩ := except_map_ok h
            rfl
          · simp only [h1, h2, h3, h4, h5, hf, String.reduceEq, reduceIte] at h
            cases h
            rfl

/-- A successful `Error` field step for key `message` with a string value
stores that string. -/
theorem setErrorField_Message_str {e e2 : Error} {f : String × Json} {s : String}
    (hf : f.1 = "message") (hv : f.2 = Json.str s)
    (h : setErrorField e f = .ok e2) :
    e2.Message = s := by
  unfold setErrorField at h
  simp only [hf, hv, String.reduceEq, reduceIte] at h
  obtain ⟨t, ht, rfl⟩ := except_map_ok h
  simp only [decodeStringField] at ht
  cases ht
  rfl

/-- Folding the `Response` setter over an object's fields gives the last
`data` value when the key occurs, and otherwise leaves the accumulator's
`Data`. -/
theorem decodeFields_resp_Data :
    ∀ (fs : List (String × Json)) (r r' : Response),
      decodeFields setResponseField r fs = .ok r' →
      r'.Data = match lastAssoc "data" fs with
                | some v => some v
                | none => r.Data := by
  intro fs
  induction fs with
  | nil =>
    intro r r' h
    simp only [decodeFields] at h
    cases h
    simp [lastAssoc]
  | cons f fs ih =>
    intro r r' h
    simp only [decodeFields] at h
    cases hs : setResponseField r f with
    | error m => rw [hs] at h; cases h
    | ok a2 =>
      rw [hs] at h
      have hd := setResponseField_Data hs
      have hrec := ih a2 r' h
      simp only [lastAssoc]
      cases hl : lastAssoc "data" fs with
      | some v => rw [hl] at hrec; simpa using hrec
      | none =>
        rw [hl] at hrec
        rw [hrec, hd]
        by_cases hf : f.1 = "data" <;> simp [hf]

/-- Folding the `Error` setter over fields with no `message` key leaves the
accumulator's `Message`. -/
theorem decodeFields_err_Message_none :
    ∀ (fs : List (String × Json)) (e e' : Error),
      lastAssoc "message" fs = none →
      decodeFields setErrorField e fs = .ok e' →
      e'.Message = e.Message := by
  intro fs
  induction fs with
  | nil =>
    intro e e' _ h
    simp only [decodeFields] at h
    cases h
    rfl
  | cons f fs ih =>
    intro e e' hl h
    simp only [lastAssoc] at hl
    cases hlt : lastAssoc "message" fs with
    | some v => rw [hlt] at hl; cases hl
    | none =>
      rw [hlt] at hl
      have hf : f.1 ≠ "message" := by
        intro hc
        rw [if_pos hc] at hl
        cases hl
      simp only [decodeFields] at h
      cases hs : setErrorField e f with
      | error m => rw [hs] at h; cases h
      | ok a2 =>
        rw [hs] at h
        rw [ih a2 e' hlt h, setErrorField_Message_other hf hs]

/-- Folding the `Error` setter over fields whose last `message` value is the
string `m` yields `Message = m`. -/
theorem decodeFields_err_Message :
    ∀ (fs : List (String × Json)) (e e' : Error) (m : String),
      lastAssoc "message" fs = some (Json.str m) →
      decodeFields setErrorField e fs = .ok e' →
      e'.Message = m := by
  intro fs
  induction fs with
  | nil =>
    intro e e' m hl _
    simp [lastAssoc] at hl
  | cons f fs ih =>
    intro e e' m hl h
    simp only [decodeFields] at h
    cases hs : setErrorField e f with
    | error mm => rw [hs] at h; cases h
    | ok a2 =>
      rw [hs] at h
      simp only [lastAssoc] at hl
      cases hlt : lastAssoc "message" fs with
      | some v =>
        rw [hlt] at hl
        cases hl
        exact ih a2 e' m hlt h
      | none =>
        rw [hlt] at hl
        by_cases hf : f.1 = "message"
        · rw [if_pos hf] at hl
          have hf2 : f.2 = Json.str m := by injection hl
          rw [decodeFields_err_Message_none fs a2 e' hlt h,
            setErrorField_Message_str hf hf2 hs]
        · rw [if_neg hf] at hl
          cases hl

/-- The success-envelope fields an `Error` value carries, as a `Response`. -/
def Error.toResponse (e : Error) : Response :=
  { Status := e.Status, Time := e.Time, Flags := e.Flags, Data := e.Data }

/-- An `Error` field step that succeeds is mirrored by a `Response` field
step on the shared fields: `error_code` and `message` are unknown keys to
`Response` and are ignored there. -/
theorem setErrorField_toResponse {e e2 : Error} {f : String × Json}
    (h : setErrorField e f = .ok e2) :
    setResponseField e.toResponse f = .ok e2.toResponse := by
  unfold setErrorField at h
  unfold setResponseField Error.toResponse
  by_cases h1 : f.1 = "status"
  · simp only [h1, String.reduceEq, reduceIte] at h ⊢
    obtain ⟨s, hx, rfl⟩ := except_map_ok h
    rw [hx]
    rfl
  · by_cases h2 : f.1 = "time"
    · simp only [h1, h2, String.reduceEq, reduceIte] at h ⊢
      obtain ⟨q, hx, rfl⟩ := except_map_ok h
      rw [hx]
      rfl
    · by_cases h3 : f.1 = "flags"
      · simp only [h1, h2, h3, String.reduceEq, reduceIte] at h ⊢
        obtain ⟨v, hx, rfl⟩ := except_map_ok h
        simp only [decodeRawField] at hx ⊢
        cases hx
        rfl
      · by_cases h4 : f.1 = "data"
        · simp only [h1, h2, h3, h4, String.reduceEq, reduceIte] at h ⊢
          obtain ⟨v, hx, rfl⟩ := except_map_ok h
          simp only [decodeRawField] at hx ⊢
          cases hx
          rfl
        · by_cases h5 : f.1 = "error_code"
          · simp only [h1, h2, h3, h4, h5, String.reduceEq, reduceIte] at h ⊢
            obtain ⟨s, _, rfl⟩ := except_map_ok h
            rfl
          · by_cases h6 : f.1 = "message"
            · simp only [h1, h2, h3, h4, h5, h6, String.reduceEq, reduceIte] at h ⊢
              obtain ⟨s, _, rfl⟩ := except_map_ok h
              rfl
            · simp only [h1, h2, h3, h4, h5, h6, String.reduceEq, reduceIte] at h ⊢
              cases h
              rfl

/-- Folding the `Error` setter successfully over an object's fields is
mirrored, on the shared envelope fields, by the `Response` fold. -/
theorem decodeFields_err_toResponse :
    ∀ (fs : List (String × Json)) (e e' : Error),
      decodeFields setErrorField e fs = .ok e' →
      decodeFields setResponseField e.toResponse fs = .ok e'.toResponse := by
  intro fs
  induction fs with
  | nil =>
    intro e e' h
    simp only [decodeFields] at h ⊢
    cases h
    rfl
  | cons f fs ih =>
    intro e e' h
    simp only [decodeFields] at h ⊢
    cases hs : setErrorField e f with
    | error m => rw [hs] at h; cases h
    | ok a2 =>
      rw [hs] at h
      rw [setErrorField_toResponse hs]
      exact ih a2 e' h

/-- A body that parses as the error envelope also parses as the success
envelope, with the shared fields agreeing. -/
theorem unmarshalError_toResponse {j : Json} {e : Error}
    (h : unmarshalError j = .ok e) :
    unmarshalResponse j = .ok e.toResponse := by
  cases j with
  | obj fs =>
    simp only [unmarshalError, unmarshalStruct] at h
    simp only [unmarshalResponse, unmarshalStruct]
    have : ({} : Error).toResponse = ({} : Response) := rfl
    rw [← this]
    exact decodeFields_err_toResponse fs {} e h
  | null =>
    simp only [unmarshalError, unmarshalStruct] at h
    cases h
    rfl
  | bool b => simp [unmarshalError, unmarshalStruct] at h
  | num q => simp [unmarshalError, unmarshalStruct] at h
  | str s => simp [unmarshalError, unmarshalStruct] at h
  | arr xs => simp [unmarshalError, unmarshalStruct] at h

/-- A body that parses as the success envelope has, as its `Data`, exactly
the raw value of the body's (last) `data` field. -/
theorem unmarshalResponse_Data {fs : List (String × Json)} {r : Response}
    (h : unmarshalResponse (Json.obj fs) = .ok r) :
    r.Data = lastAssoc "data" fs := by
  simp only [unmarshalResponse, unmarshalStruct] at h
  have := decodeFields_resp_Data fs {} r h
  cases hl : lastAssoc "data" fs <;> rw [hl] at this <;> exact this

/-- Reduction of `do` on a non-200 response: the body is decoded as an
`Error` and returned (or its decode failure wrapped). -/
theorem doRequest_non200 {c : Client} {env : Env} {method path : String}
    {body : Option GoValue} {ob : Option Json} {s : Nat} {rb : RespBody}
    (hb : marshalBody body = .ok ob)
    (hn : env.newRequestFails = none)
    (ht : env.transport (c.newRequest method path ob) = .success s rb)
    (hs : s ≠ 200) :
    c.doRequest env method path body =
      match unmarshalBody unmarshalError rb with
      | .error m => .error (.errorf "error unmarshaling error response" (.jsonError m))
      | .ok e => .error (.api e) := by
  unfold Client.doRequest
  simp only [hb, hn, ht, if_pos hs]

/-- Reduction of `do` on a 200 response: the body is decoded as the success
envelope, then the `status` field is checked. -/
theorem doRequest_200 {c : Client} {env : Env} {method path : String}
    {body : Option GoValue} {ob : Option Json} {rb : RespBody}
    (hb : marshalBody body = .ok ob)
    (hn : env.newRequestFails = none)
    (ht : env.transport (c.newRequest method path ob) = .success 200 rb) :
    c.doRequest env method path body =
      match unmarshalBody unmarshalResponse rb with
      | .error m => .error (.errorf "error unmarshaling response" (.jsonError m))
      | .ok resp =>
        if resp.Status ≠ "success" then
          match unmarshalBody unmarshalError rb with
          | .error m => .error (.errorf "error unmarshaling error response" (.jsonError m))
          | .ok e => .error (.api e)
        else .ok resp := by
  unfold Client.doRequest
  simp only [hb, hn, ht, ne_eq, not_true, reduceIte]

/-! ## Claims -/

/-- C1 (amended): for every HTTP response whose status code is exactly 200
(`http.StatusOK`, the only code the transport wrapper accepts) and whose body
is a well-formed envelope with `status` equal to `"success"`, `do` returns
that envelope with a nil error, and the returned envelope's `Data` field is
the raw, unparsed JSON value of the response body's `data` field. -/
theorem C1_do_success_envelope_on_200
    (c : Client) (env : Env) (method path : String) (body : Option GoValue)
    (ob : Option Json) (fs : List (String × Json)) (r : Response)
    (hb : marshalBody body = .ok ob)
    (hn : env.newRequestFails = none)
    (ht : env.transport (c.newRequest method path ob) =
      .success 200 (.wellFormed (Json.obj fs)))
    (hr : unmarshalResponse (Json.obj fs) = .ok r)
    (hs : r.Status = "success") :
    c.doRequest env method path body = .ok r ∧ r.Data = lastAssoc "data" fs := by
  refine ⟨?_, unmarshalResponse_Data hr⟩
  rw [doRequest_200 hb hn ht]
  simp only [unmarshalBody, hr, hs, ne_eq, not_true, reduceIte, String.reduceEq]

/-- C1 witness: a stub server answering 200 with a success envelope makes
`do` return the parsed envelope, whose `Data` is the body's `data` field. -/
theorem C1_witness :
    (NewClient "k1").doRequest (stubEnv 200 (Json.obj succFields)) "POST"
        "/send/message" none = .ok succResponse
      ∧ succResponse.Data = lastAssoc "data" succFields :=
  C1_do_success_envelope_on_200 (NewClient "k1") (stubEnv 200 (Json.obj succFields))
    "POST" "/send/message" none none succFields succResponse rfl rfl rfl rfl rfl

/-- C1 counterexample: status 201 is in the 2xx range and the body is a
well-formed envelope with `status` `"success"`, yet `do` does not return the
envelope with a nil error — it takes the non-200 branch and fails. -/
theorem C1_counterexample_201 :
    in2xx 201
      ∧ unmarshalResponse (Json.obj succFields) = .ok succResponse
      ∧ succResponse.Status = "success"
      ∧ resultIsOk ((NewClient "k1").doRequest (stubEnv 201 (Json.obj succFields))
          "POST" "/send/message" none) = false :=
  ⟨by decide, by rfl, by rfl, by rfl⟩

/-- C2: for every HTTP response whose status code is outside the 2xx range
and whose body parses as an error envelope, `do` returns a nil envelope and
the structured API error parsed from the body, whose `Message` equals the
envelope's `message` field. -/
theorem C2_non2xx_returns_api_error
    (c : Client) (env : Env) (method path : String) (body : Option GoValue)
    (ob : Option Json) (s : Nat) (fs : List (String × Json)) (e : Error) (msg : String)
    (hb : marshalBody body = .ok ob)
    (hn : env.newRequestFails = none)
    (ht : env.transport (c.newRequest method path ob) =
      .success s (.wellFormed (Json.obj fs)))
    (hs : ¬ in2xx s)
    (he : unmarshalError (Json.obj fs) = .ok e)
    (hm : lastAssoc "message" fs = some (Json.str msg)) :
    c.doRequest env method path body = .error (.api e) ∧ e.Message = msg := by
  have h200 : s ≠ 200 := by
    intro hc
    exact hs (by rw [hc]; exact ⟨le_refl _, by norm_num⟩)
  constructor
  · rw [doRequest_non200 hb hn ht h200]
    simp only [unmarshalBody, he]
  · simp only [unmarshalError, unmarshalStruct] at he
    exact decodeFields_err_Message fs {} e msg hm he

/-- C2 witness: a stub server answering 500 with the test error envelope
makes `do` return the parsed `*Error` carrying that envelope's message. -/
theorem C2_witness :
    (NewClient "k2").doRequest (stubEnv 500 (Json.obj errFields)) "POST" "/x" none
        = .error (.api errParsed)
      ∧ errParsed.Message = "Test error message" :=
  C2_non2xx_returns_api_error (NewClient "k2") (stubEnv 500 (Json.obj errFields))
    "POST" "/x" none none 500 errFields errParsed "Test error message"
    rfl rfl rfl (by decide) rfl rfl

/-- C10: every envelope `do` (hence also `post`) returns with a nil error has
`Status` equal to `"success"`. -/
theorem C10_ok_implies_success_status :
    (∀ (c : Client) (env : Env) (method path : String) (body : Option GoValue)
        (r : Response), c.doRequest env method path body = .ok r → r.Status = "success")
      ∧ (∀ (c : Client) (env : Env) (path : String) (body : Option GoValue)
        (r : Response), c.post env path body = .ok r → r.Status = "success") := by
  have core : ∀ (c : Client) (env : Env) (method path : String) (body : Option GoValue)
      (r : Response), c.doRequest env method path body = .ok r → r.Status = "success" := by
    intro c env method path body r h
    unfold Client.doRequest at h
    cases hb : marshalBody body with
    | error e => simp only [hb] at h; exact Except.noConfusion h
    | ok ob =>
      simp only [hb] at h
      cases hn : env.newRequestFails with
      | some m => simp only [hn] at h; exact Except.noConfusion h
      | none =>
        simp only [hn] at h
        cases ht : env.transport (c.newRequest method path ob) with
        | doFails m => simp only [ht] at h; exact Except.noConfusion h
        | readFails s m => simp only [ht] at h; exact Except.noConfusion h
        | success s rb =>
          simp only [ht] at h
          by_cases hs : s ≠ 200
          · rw [if_pos hs] at h
            cases hu : unmarshalBody unmarshalError rb <;> simp only [hu] at h <;>
              exact Except.noConfusion h
          · rw [if_neg hs] at h
            cases hu : unmarshalBody unmarshalResponse rb with
            | error m => simp only [hu] at h; exact Except.noConfusion h
            | ok resp =>
              simp only [hu] at h
              by_cases hss : resp.Status ≠ "success"
              · rw [if_pos hss] at h
                cases hu2 : unmarshalBody unmarshalError rb <;> simp only [hu2] at h <;>
                  exact Except.noConfusion h
              · rw [if_neg hss] at h
                injection h with h2
                subst h2
                exact not_not.mp hss
  exact ⟨core, fun c env path body r h => core c env "POST" path body r h⟩

/-- C10 witness: the envelope returned by `do` against a stub 200 success
response indeed has status `"success"`. -/
theorem C10_witness : succResponse.Status = "success" :=
  C10_ok_implies_success_status.1 (NewClient "k10") (stubEnv 200 (Json.obj succFields))
    "POST" "/p" none succResponse rfl

/-- C3 (amended): for every HTTP response with a 2xx status code whose body
is a well-formed envelope with `status` not equal to `"success"`, `do` never
returns a success result; when the body moreover parses as an error envelope,
the returned error is the structured `*Error` parsed from that body (when it
does not, the error is a generic unmarshal error, not an `*Error`). -/
theorem C3_2xx_nonsuccess_never_success
    (c : Client) (env : Env) (method path : String) (body : Option GoValue)
    (ob : Option Json) (s : Nat) (fs : List (String × Json))
    (hb : marshalBody body = .ok ob)
    (hn : env.newRequestFails = none)
    (ht : env.transport (c.newRequest method path ob) =
      .success s (.wellFormed (Json.obj fs)))
    (h2 : in2xx s) :
    (∀ (r r'' : Response), unmarshalResponse (Json.obj fs) = .ok r →
        r.Status ≠ "success" → c.doRequest env method path body ≠ .ok r'')
      ∧ (∀ (e : Error), unmarshalError (Json.obj fs) = .ok e →
        e.Status ≠ "success" → c.doRequest env method path body = .error (.api e)) := by
  constructor
  · intro r r'' hr hrs hcontra
    by_cases hs200 : s = 200
    · subst hs200
      rw [doRequest_200 hb hn ht] at hcontra
      simp only [unmarshalBody, hr] at hcontra
      rw [if_pos hrs] at hcontra
      cases hue : unmarshalError (Json.obj fs) <;> simp only [hue] at hcontra <;>
        exact Except.noConfusion hcontra
    · rw [doRequest_non200 hb hn ht hs200] at hcontra
      simp only [unmarshalBody] at hcontra
      cases hue : unmarshalError (Json.obj fs) <;> simp only [hue] at hcontra <;>
        exact Except.noConfusion hcontra
  · intro e he hes
    by_cases hs200 : s = 200
    · subst hs200
      rw [doRequest_200 hb hn ht]
      simp only [unmarshalBody, unmarshalError_toResponse he]
      rw [if_pos (show (Error.toResponse e).Status ≠ "success" from hes)]
      simp only [he]
    · rw [doRequest_non200 hb hn ht hs200]
      simp only [unmarshalBody, he]

/-- C3 witness: a stub 201 response carrying the test error envelope makes
`do` return exactly the parsed `*Error`. -/
theorem C3_witness :
    (NewClient "k3").doRequest (stubEnv 201 (Json.obj errFields)) "POST" "/y" none
      = .error (.api errParsed) :=
  (C3_2xx_nonsuccess_never_success (NewClient "k3") (stubEnv 201 (Json.obj errFields))
    "POST" "/y" none none 201 errFields rfl rfl rfl (by decide)).2
    errParsed rfl (by decide)

/-- C3 counterexample: a 200 response whose body is a well-formed envelope
with `status` `"fail"` but whose `error_code` is a number parses as the
envelope yet not as an `Error`, so `do` returns a generic unmarshal error and
not the structured `*Error` the claim promises. -/
theorem C3_counterexample_mixed_envelope :
    in2xx 200
      ∧ unmarshalResponse (Json.obj mixedFields) = .ok { Status := "fail" }
      ∧ ("fail" : String) ≠ "success"
      ∧ (NewClient "k3c").doRequest (stubEnv 200 (Json.obj mixedFields)) "POST" "/z" none
          = .error (.errorf "error unmarshaling error response"
              (.jsonError "cannot unmarshal value into Go field of type string"))
      ∧ returnsApiError ((NewClient "k3c").doRequest (stubEnv 200 (Json.obj mixedFields))
          "POST" "/z" none) = false :=
  ⟨by decide, by rfl, by decide, by rfl, by rfl⟩

/-- C4: for every endpoint method, when the transport call succeeds but the
envelope's `data` does not unmarshal into the method's response type, the
method returns a nil result and a response-parsing error, never a success. -/
theorem C4_bad_data_yields_parse_error :
    (∀ (c : Client) (env : Env) (id : Int) (resp : Response) (m : String),
        c.post env "/messages/message" (some (.jsonable (idBody id))) = .ok resp →
        decodeData unmarshalMessage resp.Data = .error m →
        c.GetMessage env id = .error (.errorf "error unmarshaling response" (.jsonError m)))
      ∧ (∀ (c : Client) (env : Env) (id : Int) (resp : Response) (m : String),
        c.post env "/messages/deliveries" (some (.jsonable (idBody id))) = .ok resp →
        decodeData unmarshalDeliveries resp.Data = .error m →
        c.GetMessageDeliveries env id
          = .error (.errorf "error unmarshaling response" (.jsonError m)))
      ∧ (∀ (c : Client) (env : Env) (req : SendMessageRequest) (resp : Response) (m : String),
        c.post env "/send/message" (some (.jsonable req.toJson)) = .ok resp →
        decodeData unmarshalSendResponse resp.Data = .error m →
        c.SendMessage env req
          = .error (.errorf "error unmarshaling send response" (.jsonError m)))
      ∧ (∀ (c : Client) (env : Env) (req : SendRawRequest) (resp : Response) (m : String),
        c.post env "/send/raw" (some (.jsonable req.toJson)) = .ok resp →
        decodeData unmarshalSendResponse resp.Data = .error m →
        c.SendRaw env req
          = .error (.errorf "error unmarshaling send response" (.jsonError m))) := by
  refine ⟨?_, ?_, ?_, ?_⟩
  · intro c env id resp m hp hd
    unfold Client.GetMessage
    simp only [hp, hd]
  · intro c env id resp m hp hd
    unfold Client.GetMessageDeliveries
    simp only [hp, hd]
  · intro c env req resp m hp hd
    unfold Client.SendMessage
    simp only [hp, hd]
  · intro c env req resp m hp hd
    unfold Client.SendRaw
    simp only [hp, hd]

/-- C4 witness: a 200 success envelope whose `data` is the number 7 makes
every endpoint return a wrapped unmarshal error. -/
theorem C4_witness :
    (NewClient "k4").GetMessage (stubEnv 200 badDataEnvelope) 1
        = .error (.errorf "error unmarshaling response"
            (.jsonError "cannot unmarshal value into Go struct"))
      ∧ (NewClient "k4").GetMessageDeliveries (stubEnv 200 badDataEnvelope) 1
        = .error (.errorf "error unmarshaling response"
            (.jsonError "cannot unmarshal value into Go value of type []Delivery"))
      ∧ (NewClient "k4").SendMessage (stubEnv 200 badDataEnvelope) {}
        = .error (.errorf "error unmarshaling send response"
            (.jsonError "cannot unmarshal value into Go struct"))
      ∧ (NewClient "k4").SendRaw (stubEnv 200 badDataEnvelope) {}
        = .error (.errorf "error unmarshaling send response"
            (.jsonError "cannot unmarshal value into Go struct")) :=
  ⟨C4_bad_data_yields_parse_error.1 (NewClient "k4") (stubEnv 200 badDataEnvelope) 1
      badDataResponse "cannot unmarshal value into Go struct" rfl rfl
  , C4_bad_data_yields_parse_error.2.1 (NewClient "k4") (stubEnv 200 badDataEnvelope) 1
      badDataResponse "cannot unmarshal value into Go value of type []Delivery" rfl rfl
  , C4_bad_data_yields_parse_error.2.2.1 (NewClient "k4") (stubEnv 200 badDataEnvelope) {}
      badDataResponse "cannot unmarshal value into Go struct" rfl rfl
  , C4_bad_data_yields_parse_error.2.2.2 (NewClient "k4") (stubEnv 200 badDataEnvelope) {}
      badDataResponse "cannot unmarshal value into Go struct" rfl rfl⟩

/-- C5: the spec's example scenario — SendMessage with To `["a@b.com"]`,
From `"c@d.com"` against a stub answering 200 with
`\x7b"status":"success","data":\x7b"message_id":123,"token":"t"\x7d\x7d`
returns message ID 123, token `"t"` and a nil error. -/
theorem C5_example_scenario :
    (NewClient "k5").SendMessage (stubEnv 200 sendEnvelope) exampleRequest
      = .ok sendResponse123 := by
  rfl

/-- C6: whenever the transport call fails, every endpoint method returns a
nil result with exactly that error, unmodified. -/
theorem C6_transport_errors_propagate :
    (∀ (c : Client) (env : Env) (id : Int) (e : GoErr),
        c.post env "/messages/message" (some (.jsonable (idBody id))) = .error e →
        c.GetMessage env id = .error e)
      ∧ (∀ (c : Client) (env : Env) (id : Int) (e : GoErr),
        c.post env "/messages/deliveries" (some (.jsonable (idBody id))) = .error e →
        c.GetMessageDeliveries env id = .error e)
      ∧ (∀ (c : Client) (env : Env) (req : SendMessageRequest) (e : GoErr),
        c.post env "/send/message" (some (.jsonable req.toJson)) = .error e →
        c.SendMessage env req = .error e)
      ∧ (∀ (c : Client) (env : Env) (req : SendRawRequest) (e : GoErr),
        c.post env "/send/raw" (some (.jsonable req.toJson)) = .error e →
        c.SendRaw env req = .error e) := by
  refine ⟨?_, ?_, ?_, ?_⟩
  · intro c env id e hp
    unfold Client.GetMessage
    simp only [hp]
  · intro c env id e hp
    unfold Client.GetMessageDeliveries
    simp only [hp]
  · intro c env req e hp
    unfold Client.SendMessage
    simp only [hp]
  · intro c env req e hp
    unfold Client.SendRaw
    simp only [hp]

/-- C6 witness: against a network that always fails, every endpoint returns
exactly the wrapped transport error. -/
theorem C6_witness :
    (NewClient "k6").GetMessage (failEnv "mock transport error") 1
        = .error (.errorf "error performing request" (.httpError "mock transport error"))
      ∧ (NewClient "k6").GetMessageDeliveries (failEnv "mock transport error") 1
        = .error (.errorf "error performing request" (.httpError "mock transport error"))
      ∧ (NewClient "k6").SendMessage (failEnv "mock transport error") {}
        = .error (.errorf "error performing request" (.httpError "mock transport error"))
      ∧ (NewClient "k6").SendRaw (failEnv "mock transport error") {}
        = .error (.errorf "error performing request" (.httpError "mock transport error")) :=
  ⟨C6_transport_errors_propagate.1 (NewClient "k6") (failEnv "mock transport error") 1 _ rfl
  , C6_transport_errors_propagate.2.1 (NewClient "k6") (failEnv "mock transport error") 1 _ rfl
  , C6_transport_errors_propagate.2.2.1 (NewClient "k6") (failEnv "mock transport error") {} _ rfl
  , C6_transport_errors_propagate.2.2.2 (NewClient "k6") (failEnv "mock transport error") {} _ rfl⟩

/-- C7: every request built by `do` carries exactly the headers
`Content-Type: application/json`, `Accept: application/json`, and
`X-Server-API-Key` equal to the client's `APIKey`. -/
theorem C7_request_headers (c : Client) (method path : String) (body : Option Json) :
    (c.newRequest method path body).headers =
      [ ("Content-Type", "application/json")
      , ("Accept", "application/json")
      , ("X-Server-API-Key", c.APIKey) ] := rfl

/-- C8: each endpoint method issues an HTTP POST to the client's base URL
concatenated with its fixed path suffix.  For each endpoint: the request it
builds has method `POST` and URL `BaseURL ++ path`, and its result depends on
the network only through the answer to that one request (two environments
that agree there give identical results). -/
theorem C8_endpoints_post_fixed_paths
    (c : Client) (env1 env2 : Env) (id : Int)
    (mreq : SendMessageRequest) (rreq : SendRawRequest)
    (hn : env1.newRequestFails = env2.newRequestFails) :
    ((c.newRequest "POST" "/send/message" (some mreq.toJson)).method = "POST"
      ∧ (c.newRequest "POST" "/send/message" (some mreq.toJson)).url
          = c.BaseURL ++ "/send/message"
      ∧ (env1.transport (c.newRequest "POST" "/send/message" (some mreq.toJson))
            = env2.transport (c.newRequest "POST" "/send/message" (some mreq.toJson)) →
          c.SendMessage env1 mreq = c.SendMessage env2 mreq))
    ∧ ((c.newRequest "POST" "/send/raw" (some rreq.toJson)).method = "POST"
      ∧ (c.newRequest "POST" "/send/raw" (some rreq.toJson)).url
          = c.BaseURL ++ "/send/raw"
      ∧ (env1.transport (c.newRequest "POST" "/send/raw" (some rreq.toJson))
            = env2.transport (c.newRequest "POST" "/send/raw" (some rreq.toJson)) →
          c.SendRaw env1 rreq = c.SendRaw env2 rreq))
    ∧ ((c.newRequest "POST" "/messages/message" (some (idBody id))).method = "POST"
      ∧ (c.newRequest "POST" "/messages/message" (some (idBody id))).url
          = c.BaseURL ++ "/messages/message"
      ∧ (env1.transport (c.newRequest "POST" "/messages/message" (some (idBody id)))
            = env2.transport (c.newRequest "POST" "/messages/message" (some (idBody id))) →
          c.GetMessage env1 id = c.GetMessage env2 id))
    ∧ ((c.newRequest "POST" "/messages/deliveries" (some (idBody id))).method = "POST"
      ∧ (c.newRequest "POST" "/messages/deliveries" (some (idBody id))).url
          = c.BaseURL ++ "/messages/deliveries"
      ∧ (env1.transport (c.newRequest "POST" "/messages/deliveries" (some (idBody id)))
            = env2.transport (c.newRequest "POST" "/messages/deliveries" (some (idBody id))) →
          c.GetMessageDeliveries env1 id = c.GetMessageDeliveries env2 id)) := by
  have hpost : ∀ (path : String) (j : Json),
      env1.transport (c.newRequest "POST" path (some j))
          = env2.transport (c.newRequest "POST" path (some j)) →
      c.post env1 path (some (.jsonable j)) = c.post env2 path (some (.jsonable j)) := by
    intro path j hagree
    unfold Client.post Client.doRequest
    simp only [marshalBody]
    rw [hn]
    cases he : env2.newRequestFails with
    | some m => simp only [he]
    | none =>
      simp only [he]
      rw [hagree]
  refine ⟨⟨rfl, rfl, ?_⟩, ⟨rfl, rfl, ?_⟩, ⟨rfl, rfl, ?_⟩, ⟨rfl, rfl, ?_⟩⟩
  · intro hagree
    unfold Client.SendMessage
    rw [hpost "/send/message" mreq.toJson hagree]
  · intro hagree
    unfold Client.SendRaw
    rw [hpost "/send/raw" rreq.toJson hagree]
  · intro hagree
    unfold Client.GetMessage
    rw [hpost "/messages/message" (idBody id) hagree]
  · intro hagree
    unfold Client.GetMessageDeliveries
    rw [hpost "/messages/deliveries" (idBody id) hagree]

/-- C8 witness: at a concrete client the built fetch request targets
`BaseURL ++ "/messages/message"`, and a concrete environment agreeing with
itself gives identical endpoint results. -/
theorem C8_witness :
    ((NewClient "k8").newRequest "POST" "/messages/message" (some (idBody 1))).url
        = (NewClient "k8").BaseURL ++ "/messages/message"
      ∧ (NewClient "k8").GetMessage (stubEnv 200 sendEnvelope) 1
        = (NewClient "k8").GetMessage (stubEnv 200 sendEnvelope) 1 :=
  ⟨(C8_endpoints_post_fixed_paths (NewClient "k8") (stubEnv 200 sendEnvelope)
      (stubEnv 200 sendEnvelope) 1 {} {} rfl).2.2.1.2.1
  , (C8_endpoints_post_fixed_paths (NewClient "k8") (stubEnv 200 sendEnvelope)
      (stubEnv 200 sendEnvelope) 1 {} {} rfl).2.2.1.2.2 rfl⟩

/-- C9: no operation mutates the client — after any call to `do`, `post` or
any endpoint method, the receiver's `BaseURL`, `APIKey` and `HTTPClient` are
what they were before, whether or not the call succeeds. -/
theorem C9_client_never_mutated
    (c : Client) (env : Env) (method path : String) (b : Option GoValue)
    (id : Int) (mreq : SendMessageRequest) (rreq : SendRawRequest) :
    ((c.doRequestSt env method path b).2.BaseURL = c.BaseURL
      ∧ (c.doRequestSt env method path b).2.APIKey = c.APIKey
      ∧ (c.doRequestSt env method path b).2.HTTPClient = c.HTTPClient)
    ∧ ((c.postSt env path b).2.BaseURL = c.BaseURL
      ∧ (c.postSt env path b).2.APIKey = c.APIKey
      ∧ (c.postSt env path b).2.HTTPClient = c.HTTPClient)
    ∧ ((c.GetMessageSt env id).2.BaseURL = c.BaseURL
      ∧ (c.GetMessageSt env id).2.APIKey = c.APIKey
      ∧ (c.GetMessageSt env id).2.HTTPClient = c.HTTPClient)
    ∧ ((c.GetMessageDeliveriesSt env id).2.BaseURL = c.BaseURL
      ∧ (c.GetMessageDeliveriesSt env id).2.APIKey = c.APIKey
      ∧ (c.GetMessageDeliveriesSt env id).2.HTTPClient = c.HTTPClient)
    ∧ ((c.SendMessageSt env mreq).2.BaseURL = c.BaseURL
      ∧ (c.SendMessageSt env mreq).2.APIKey = c.APIKey
      ∧ (c.SendMessageSt env mreq).2.HTTPClient = c.HTTPClient)
    ∧ ((c.SendRawSt env rreq).2.BaseURL = c.BaseURL
      ∧ (c.SendRawSt env rreq).2.APIKey = c.APIKey
      ∧ (c.SendRawSt env rreq).2.HTTPClient = c.HTTPClient) :=
  ⟨⟨rfl, rfl, rfl⟩, ⟨rfl, rfl, rfl⟩, ⟨rfl, rfl, rfl⟩, ⟨rfl, rfl, rfl⟩,
    ⟨rfl, rfl, rfl⟩, ⟨rfl, rfl, rfl⟩⟩

end postalclient
